import Mathlib

/-!
Shallow embedding of the page-transition controller and DOM utility scripts
of the primal_2.0 repository (browser-side presentation scripts).

The embedding translates, from the JavaScript source:
  - updateCETTime (footer clock formatting);
  - the emergency failsafe timeout that reveals elements marked with
    data-prevent-flicker;
  - syncHtmlAndBodyFromHTML (extraction of the data-wf-page attribute and the
    body class from a fetched markup string, with the regex semantics of the
    source spelled out as character-list scanners);
  - window.instanceRegistry (register / destroyAll) and executeCustomScripts
    (script-identity computation and double-execution prevention);
  - the Barba transition state machine: the capture-phase click handler, the
    popstate handler, triggerSamePageTransition, the pending-navigation replay
    at the end of the enter hook, the scroll handling of afterLeave /
    beforeEnter / enter, and the prevent predicate of barba.init.

DOM side effects that the theorems do not need (animation tweens, class list
toggles on html, Webflow reinitialisation) are either recorded as abstract
effect labels or omitted; every control-flow decision of the translated
functions follows the source.
-/

namespace Primal

/- ==========================================================
   updateCETTime (src/main.js lines 394-415, part_003 lines 1576-1597)
   ========================================================== -/

/-- Translation of the body of updateCETTime: given the CET hour (0-23) and
minute (0-59) read from the Date object, produce the displayed time string.
Mirrors the source: ampm is PM when hours >= 12, hours and minutes are
padded with a leading 0 when below 10, and the result is
hoursStr ++ ":" ++ minutesStr ++ " " ++ ampm. -/
def updateCETTime (hours minutes : Nat) : String :=
  let ampm := if hours ≥ 12 then "PM" else "AM"
  let hoursStr := if hours < 10 then "0" ++ toString hours else toString hours
  let minutesStr := if minutes < 10 then "0" ++ toString minutes else toString minutes
  hoursStr ++ ":" ++ minutesStr ++ " " ++ ampm

/-- Two-digit zero padding, the characterisation used in the statements. -/
def padTwo (n : Nat) : String :=
  if n < 10 then "0" ++ toString n else toString n

/- ==========================================================
   Emergency failsafe (part_003 lines 2645-2654, part_002 lines 903-912)
   ========================================================== -/

/-- View element as seen by the failsafe: whether it carries
data-prevent-flicker="true", whether its computed visibility is hidden, and
its inline opacity. -/
structure FlickerElement where
  preventFlicker : Bool
  visibilityHidden : Bool
  opacity : String
deriving DecidableEq

/-- The wall-clock delay of the failsafe setTimeout, in milliseconds. -/
def FAILSAFE_TIMEOUT_MS : Nat := 3000

/-- A pending navigation request, as stored in pendingNavigation:
url, optional hash fragment, and the special-nav-button flag. -/
structure Nav where
  url : String
  hash : Option String
  isSpecial : Bool
deriving DecidableEq

/-- Transition state of the Barba controller: the isTransitioning flag, the
single optional pending navigation, the stored navigation hash
(window.barbaNavigationHash, with the empty JS string modelled as none since
the source only ever tests it for truthiness), and the special-nav flag. -/
structure TransitionState where
  isTransitioning : Bool
  pendingNavigation : Option Nav
  barbaNavigationHash : Option String
  barbaSpecialNavButton : Bool
deriving DecidableEq

/-- Translation of the failsafe setTimeout callback. The callback queries
the DOM for elements with data-prevent-flicker="true" and forces any whose
computed visibility is hidden to visibility visible and opacity 1. It is
scheduled unconditionally when the script is evaluated and reads none of
the transition-machinery state, which is therefore an ignored argument. -/
def failsafeTimeout (machinery : TransitionState) (elems : List FlickerElement) :
    List FlickerElement :=
  elems.map (fun c =>
    if c.preventFlicker && c.visibilityHidden then
      { c with visibilityHidden := false, opacity := "1" }
    else c)

/- ==========================================================
   syncHtmlAndBodyFromHTML (part_003 lines 1927-1950)
   ========================================================== -/

/-- Case-insensitive character comparison, the semantics of the i flag on the
regexes of syncHtmlAndBodyFromHTML. -/
def ciCharEq (a b : Char) : Bool := a.toLower == b.toLower

/-- Case-insensitive prefix test on character lists. -/
def ciIsPrefixOf : List Char → List Char → Bool
  | [], _ => true
  | _ :: _, [] => false
  | p :: ps, c :: cs => ciCharEq p c && ciIsPrefixOf ps cs

/-- Semantics of nextHTMLString.match over the html-tag regex of the source:
the match starts at the first occurrence (case-insensitive) of the opening
html tag text that is followed, after a run of characters other than the
closing angle bracket, by a closing angle bracket; the returned match runs up
to and including that bracket. none when the regex does not match. -/
def scanHtmlTag : List Char → Option (List Char)
  | [] => none
  | c :: cs =>
    if ciIsPrefixOf "<html".toList (c :: cs) && (c :: cs).contains '>' then
      some ((c :: cs).takeWhile (fun x => x != '>') ++ ['>'])
    else scanHtmlTag cs

/-- The literal part of the data-wf-page regex of the source, up to the
opening quote of the attribute value. -/
def WFPAT : List Char := "data-wf-page=\"".toList

/-- Semantics of htmlTag.match over the data-wf-page regex: at the first
position (scanning left to right, case-insensitive on the literal) where the
attribute text is followed by at least one character other than a double
quote and then a closing double quote, return the captured value; positions
where the capture would be empty or the closing quote is missing are skipped,
as regex backtracking does. -/
def scanWfPage : List Char → Option (List Char)
  | [] => none
  | c :: cs =>
    if ciIsPrefixOf WFPAT (c :: cs) then
      let rest := (c :: cs).drop WFPAT.length
      let v := rest.takeWhile (fun x => x != '"')
      if rest.contains '"' && v.length > 0 then some v
      else scanWfPage cs
    else scanWfPage cs

/-- The literal part of the body-class regex of the source, up to the opening
quote of the class value. -/
def CLASSPAT : List Char := "class=\"".toList

/-- Offsets p into the text after an opening body tag at which the body-class
regex can continue: the p characters consumed by the greedy any-but-closing-
bracket part contain no closing angle bracket, the class attribute literal
follows (case-insensitive), and a closing double quote occurs afterwards. -/
def classMatchPositions (l : List Char) : List Nat :=
  (List.range (l.length + 1)).filter (fun p =>
    ((l.take p).all (fun x => x != '>')) &&
    ciIsPrefixOf CLASSPAT (l.drop p) &&
    (l.drop (p + CLASSPAT.length)).contains '"')

/-- Semantics of nextHTMLString.match over the body-class regex: at the first
occurrence of the opening body tag text from which the rest of the pattern
can match, the greedy middle part selects the largest viable offset, and the
capture is everything after the opening quote up to the first closing double
quote; the capture may be empty. -/
def scanBodyClass : List Char → Option (List Char)
  | [] => none
  | c :: cs =>
    if ciIsPrefixOf "<body".toList (c :: cs) then
      match (classMatchPositions ((c :: cs).drop 5)).getLast? with
      | some p =>
        some ((((c :: cs).drop 5).drop (p + CLASSPAT.length)).takeWhile (fun x => x != '"'))
      | none => scanBodyClass cs
    else scanBodyClass cs

/-- wfPage extraction of syncHtmlAndBodyFromHTML: the data-wf-page value
found inside the matched html tag. The source tests the extracted value for
truthiness; scanWfPage already guarantees a nonempty capture. -/
def extractWfPage (s : String) : Option String :=
  (scanHtmlTag s.toList).bind (fun tag => (scanWfPage tag).map String.mk)

/-- bodyClass extraction of syncHtmlAndBodyFromHTML, applied to the whole
markup string. The source accepts any string value, including the empty
capture. -/
def extractBodyClass (s : String) : Option String :=
  (scanBodyClass s.toList).map String.mk

/-- Document state touched by syncHtmlAndBodyFromHTML: the data-wf-page
attribute of the document element (none when absent) and the body class. -/
structure DocState where
  wfPage : Option String
  bodyClassName : String
deriving DecidableEq

/-- Translation of syncHtmlAndBodyFromHTML: an empty (falsy) markup string
returns immediately; otherwise the data-wf-page attribute is set when a value
was found in the html tag, and the body class is replaced when the body-class
regex matched (even with an empty capture). -/
def syncHtmlAndBodyFromHTML (st : DocState) (nextHTMLString : String) : DocState :=
  if nextHTMLString = "" then st
  else
    let st1 := match extractWfPage nextHTMLString with
      | some v => { st with wfPage := some v }
      | none => st
    match extractBodyClass nextHTMLString with
    | some cls => { st1 with bodyClassName := cls }
    | none => st1

/- ==========================================================
   instanceRegistry and executeCustomScripts (part_003 lines 1712-1824)
   ========================================================== -/

/-- An entry of window.instanceRegistry.instances: the key, the registered
destroy-method name, and the method names actually callable on the instance
(the source guards the call with a typeof function check). -/
structure InstanceEntry where
  name : String
  destroyMethod : String
  methods : List String
deriving DecidableEq

/-- The registry state: the instance map (a JS Map, keyed by name, kept in
insertion order), the initialized-script identity set, and the two per-widget
window flags that destroyAll resets. -/
structure Registry where
  instances : List InstanceEntry
  initializedScripts : List String
  macyInitialized : Bool
  reelOverlayInitialized : Bool
deriving DecidableEq

/-- Translation of instanceRegistry.register: Map.set semantics, replacing an
existing entry with the same name and appending otherwise. -/
def Registry.register (r : Registry) (name destroyMethod : String)
    (methods : List String) : Registry :=
  if r.instances.any (fun e => e.name == name) then
    { r with instances := r.instances.map (fun e =>
        if e.name == name then ⟨name, destroyMethod, methods⟩ else e) }
  else
    { r with instances := r.instances ++ [⟨name, destroyMethod, methods⟩] }

/-- Translation of instanceRegistry.destroyAll: every entry whose instance
exposes the registered destroy method produces one call (name, method); a
throwing teardown is caught by the source and does not stop the loop, so the
call list is exactly the filtered map. Afterwards the instance map and the
initialized-script set are cleared and both widget flags are reset. -/
def destroyAll (r : Registry) : Registry × List (String × String) :=
  ({ instances := [],
     initializedScripts := [],
     macyInitialized := false,
     reelOverlayInitialized := false },
   r.instances.filterMap (fun e =>
     if e.methods.contains e.destroyMethod then some (e.name, e.destroyMethod)
     else none))

/-- The whitespace class of the JS regex used in the script-identity
computation, restricted to its ASCII members. -/
def isJsSpace (c : Char) : Bool :=
  c == ' ' || c == '\t' || c == '\n' || c == '\r' ||
  c == Char.ofNat 11 || c == Char.ofNat 12

/-- Script identity of executeCustomScripts: action, then the index of the
script in the processed list, then the first 20 characters of the content
with whitespace removed, joined by underscores. -/
def mkScriptId (action : String) (index : Nat) (content : String) : String :=
  action ++ "_" ++ toString index ++ "_" ++
    String.mk ((content.toList.take 20).filter (fun c => !(isJsSpace c)))

/-- A script body is executed only when its trimmed content is nonempty,
that is, when it holds at least one non-whitespace character. -/
def hasNonWs (content : String) : Bool :=
  content.toList.any (fun c => !(isJsSpace c))

/-- The forEach loop of executeCustomScripts, carrying the running index and
the initialized-script set: a script whose identity is already in the set is
skipped; otherwise its identity is marked and, when the trimmed content is
nonempty, the identity is recorded as executed. Returns the final set and
the identities of the scripts that were executed, in order. -/
def runCustomScripts (action : String) : Nat → List String → List String →
    List String × List String
  | _, [], st => (st, [])
  | i, c :: rest, st =>
    if st.contains (mkScriptId action i c) then
      runCustomScripts action (i + 1) rest st
    else
      let p := runCustomScripts action (i + 1) rest (mkScriptId action i c :: st)
      (p.1, if hasNonWs c then mkScriptId action i c :: p.2 else p.2)

/-- Translation of executeCustomScripts: process the scripts carrying the
given attribute, in document order, starting at index 0, against the
initialized-script set of the registry. -/
def executeCustomScripts (action : String) (scripts : List String)
    (st : List String) : List String × List String :=
  runCustomScripts action 0 scripts st

/-- The registry part of the afterLeave hook: destroyAll, then the destroy
pass of executeCustomScripts over the current document (which only touches
the initialized-script set). This is the registry state handed to
beforeEnter, where the initializers of the next view run. -/
def afterLeaveCleanup (r : Registry) (destroyScripts : List String) :
    Registry × List (String × String) :=
  let d := destroyAll r
  let ex := executeCustomScripts "destroy" destroyScripts d.1.initializedScripts
  ({ d.1 with initializedScripts := ex.1 }, d.2)

/- ==========================================================
   Barba transition machine (part_003 lines 1956-2636)
   ========================================================== -/

/-- Character-list version of String.startsWith, used so that concrete
instances evaluate inside the kernel. -/
def strStartsWith (s p : String) : Bool :=
  p.toList.isPrefixOf s.toList

/-- Character-list version of the includes test on a hash character. -/
def strContainsChar (s : String) (c : Char) : Bool :=
  s.toList.contains c

/-- A clicked link as the capture-phase click handler sees it: the raw href
attribute, the resolved absolute URL (link.href), the pathname and hash of
new URL(link.href) (hash is the empty string when absent, as in JS), the
host of the parsed URL (empty when parsing fails), and the three boolean
attributes the handler and the prevent predicate inspect. -/
structure LinkInfo where
  href : String
  absHref : String
  pathname : String
  hashFrag : String
  host : String
  hasSpecialNavButton : Bool
  hasDownload : Bool
  hasBarbaPrevent : Bool
deriving DecidableEq

/-- Outcome of the capture-phase click handler for one click. -/
inductive ClickAction where
  | ignore
  | scrollToAnchor (hash : String)
  | queue (n : Nav)
  | go (url : String)
deriving DecidableEq

/-- JS truthiness of a hash string: the empty string is falsy. -/
def jsHashOpt (h : String) : Option String :=
  if h = "" then none else some h

/-- Translation of the capture-phase click handler (part_003 lines
2242-2310). Special nav buttons whose raw href holds a hash are scrolled
directly on the same page, or navigated (queued while a transition is in
flight) across pages after storing the hash and special flag; plain hrefs
that start with a slash but not with a slash-hash are navigated or queued;
everything else is left to the browser and to barba.init. -/
def clickHandler (st : TransitionState) (l : LinkInfo) (currentPathname : String) :
    ClickAction × TransitionState :=
  if l.hasSpecialNavButton && strContainsChar l.href '#' then
    if l.pathname = currentPathname then
      (ClickAction.scrollToAnchor l.hashFrag, st)
    else
      let st1 := { st with barbaNavigationHash := jsHashOpt l.hashFrag,
                           barbaSpecialNavButton := true }
      if st1.isTransitioning then
        (ClickAction.queue ⟨l.absHref, jsHashOpt l.hashFrag, true⟩,
         { st1 with pendingNavigation := some ⟨l.absHref, jsHashOpt l.hashFrag, true⟩ })
      else (ClickAction.go l.absHref, st1)
  else if strStartsWith l.href "/" && !(strStartsWith l.href "/#") then
    if st.isTransitioning then
      (ClickAction.queue ⟨l.absHref, none, false⟩,
       { st with pendingNavigation := some ⟨l.absHref, none, false⟩ })
    else (ClickAction.go l.absHref, st)
  else (ClickAction.ignore, st)

/-- The navigation request a link would produce: for a special nav button
with a hash, the absolute URL with the hash and the special flag; otherwise
the absolute URL alone. -/
def navOf (l : LinkInfo) : Nav :=
  if l.hasSpecialNavButton && strContainsChar l.href '#' then
    ⟨l.absHref, jsHashOpt l.hashFrag, true⟩
  else ⟨l.absHref, none, false⟩

/-- A navigation click: one the handler turns into a page navigation (a
barba.go when idle, a queued pending navigation while transitioning). These
are the special-nav hash clicks to a different page and the plain clicks on
hrefs that start with a slash but not with a slash-hash. -/
def isNavClick (l : LinkInfo) (currentPathname : String) : Bool :=
  (l.hasSpecialNavButton && strContainsChar l.href '#' && !(l.pathname == currentPathname)) ||
  (!(l.hasSpecialNavButton && strContainsChar l.href '#') &&
    strStartsWith l.href "/" && !(strStartsWith l.href "/#"))

/-- Translation of the popstate capture handler (part_003 lines 2198-2211):
while a transition is in flight and no pending navigation exists, the event
is stopped and the current location is queued; otherwise nothing happens.
The boolean reports whether the event was intercepted. -/
def popstateHandler (st : TransitionState) (currentHref : String) :
    TransitionState × Bool :=
  if st.isTransitioning && st.pendingNavigation.isNone then
    ({ st with pendingNavigation := some ⟨currentHref, none, false⟩ }, true)
  else (st, false)

/-- Visual effects of triggerSamePageTransition, recorded as labels. -/
inductive TransitionEffect where
  | lenisStop
  | coverAnim
  | scrollTop
  | revealAnim
  | lenisStart
deriving DecidableEq

/-- Translation of triggerSamePageTransition (part_003 lines 1994-2029): a
call while isTransitioning is true returns immediately with no effect;
otherwise the happy path stops the smooth scroller, covers, scrolls to top,
reveals, and restarts it, and the finally clause restores isTransitioning
to false, so the state fields of the model are unchanged. -/
def triggerSamePageTransition (st : TransitionState) :
    TransitionState × List TransitionEffect :=
  if st.isTransitioning then (st, [])
  else (st, [TransitionEffect.lenisStop, TransitionEffect.coverAnim,
             TransitionEffect.scrollTop, TransitionEffect.revealAnim,
             TransitionEffect.lenisStart])

/-- End of the enter hook (part_003 lines 2470-2507): the navigation hash was
consumed and cleared, isTransitioning is set back to false, and if a pending
navigation exists it is cleared, its hash and special flag are restored, and
exactly one barba.go with its URL is scheduled after a short delay. Returns
the new state and the list of scheduled navigations. -/
def enterPendingReplay (st : TransitionState) : TransitionState × List String :=
  let st1 : TransitionState :=
    { st with isTransitioning := false, barbaNavigationHash := none }
  match st1.pendingNavigation with
  | none => (st1, [])
  | some p =>
    ({ st1 with
        pendingNavigation := none,
        barbaNavigationHash := p.hash,
        barbaSpecialNavButton := if p.isSpecial then true else st1.barbaSpecialNavButton },
     [p.url])

/-- A burst of clicks processed by the capture handler, threading the state
and collecting the outcome of each click. -/
def applyClicks (currentPathname : String) :
    TransitionState → List LinkInfo → TransitionState × List ClickAction
  | st, [] => (st, [])
  | st, l :: rest =>
    let r := clickHandler st l currentPathname
    let p := applyClicks currentPathname r.2 rest
    (p.1, r.1 :: p.2)

/-- The hosts barba.init treats as internal (part_003 lines 1901-1906);
location.host is the first entry. -/
def INTERNAL_HOSTS (locationHost : String) : List String :=
  [locationHost, "studioprimal02.webflow.io", "www.studioprimal.com", "studioprimal.com"]

/-- Translation of the prevent predicate of barba.init (part_003 lines
2314-2334): true blocks Barba from handling the link. Links without a
resolved URL are blocked; special nav buttons with a hash are allowed; then
relative links are allowed, allowed-host absolute links are allowed, and any
hash link, download link, or data-barba-prevent link is blocked. -/
def preventNavigation (locationHost : String) (l : LinkInfo) : Bool :=
  if l.absHref = "" then true
  else
    let isHash := strStartsWith l.href "#" || strContainsChar l.href '#'
    let isDownload := l.hasDownload
    let isPrevent := l.hasBarbaPrevent
    let isRelative := strStartsWith l.href "/"
    if l.hasSpecialNavButton && isHash then false
    else
      let isAllowedHost :=
        if isRelative then false else (INTERNAL_HOSTS locationHost).contains l.host
      (!isRelative && !isAllowedHost) || isHash || isDownload || isPrevent

/- ==========================================================
   Scroll handling across the hooks (part_003 lines 2395-2396, 2418-2421,
   2470-2490)
   ========================================================== -/

/-- afterLeave scroll reset: scroll to the top while the page is covered,
unless a navigation hash is stored. -/
def afterLeaveScroll (navHash : Option String) (scrollY : Nat) : Nat :=
  match navHash with
  | none => 0
  | some _ => scrollY

/-- beforeEnter hash defaulting: when no navigation hash is stored and the
transition has no trigger element (browser back/forward), the hash of the
restored location (none when empty) is adopted. -/
def beforeEnterHash (navHash : Option String) (hasTrigger : Bool)
    (locationHash : Option String) : Option String :=
  match navHash with
  | some h => some h
  | none => if hasTrigger then none else locationHash

/-- enter hash navigation: with a stored hash, the anchor element is looked
up and scrolled into view when it exists; the stored hash is cleared in
every case. -/
def enterHashScroll (navHash : Option String) (anchorPos : String → Option Nat)
    (scrollY : Nat) : Nat × Option String :=
  match navHash with
  | some h => ((anchorPos h).getD scrollY, none)
  | none => (scrollY, none)

/-- Scroll position across one transition, composing the afterLeave reset,
the beforeEnter hash defaulting, and the enter hash navigation, in the order
Barba runs the hooks. -/
def enterScrollPipeline (navHash0 : Option String) (hasTrigger : Bool)
    (locationHash : Option String) (anchorPos : String → Option Nat)
    (scrollY0 : Nat) : Nat :=
  let y1 := afterLeaveScroll navHash0 scrollY0
  let h1 := beforeEnterHash navHash0 hasTrigger locationHash
  (enterHashScroll h1 anchorPos y1).1

/-- Decimal value of a digit string, used to state that the padded hour
still denotes the original 24-hour value. -/
def decimalValue (l : List Char) : Nat :=
  l.foldl (fun a c => a * 10 + (c.toNat - 48)) 0

/- ==========================================================
   Theorems
   ========================================================== -/

/-- C10: for every time value, the clock string of updateCETTime is the
two-digit zero-padded hour, a colon, the two-digit zero-padded minute, a
space, and a suffix that is AM exactly when the hour is below 12 and PM
otherwise; the hour keeps its 24-hour value (its two digits still read back
as the original hour), so afternoon times render with the 24-hour figure and
a PM suffix, as in 14:05 PM. -/
theorem C10_updateCETTime_format :
    (∀ h m : Nat, updateCETTime h m =
        padTwo h ++ ":" ++ padTwo m ++ " " ++ (if h < 12 then "AM" else "PM")) ∧
    (∀ h : Nat, h < 24 → (padTwo h).length = 2 ∧ decimalValue (padTwo h).toList = h) ∧
    (∀ m : Nat, m < 60 → (padTwo m).length = 2) ∧
    updateCETTime 14 5 = "14:05 PM" := by
  refine ⟨?_, by decide, by decide, by decide⟩
  intro h m
  by_cases h12 : h < 12
  · have hge : ¬ (12 ≤ h) := by omega
    simp [updateCETTime, padTwo, h12, hge]
  · have hge : 12 ≤ h := by omega
    simp [updateCETTime, padTwo, h12, hge]

/-- C10 witness: the theorem applied at hour 14, minute 5. -/
theorem C10_updateCETTime_format_witness :
    (padTwo 14).length = 2 ∧ decimalValue (padTwo 14).toList = 14 :=
  C10_updateCETTime_format.2.1 14 (by decide)

/-- C4: the failsafe timeout constant is 3000 milliseconds; the failsafe
callback behaves identically whatever the transition-machinery state is
(in particular when the exit or entry animation threw or never resolved and
the machinery never returned to idle), and after it runs every element
marked data-prevent-flicker is no longer hidden. -/
theorem C4_failsafe_reveals :
    FAILSAFE_TIMEOUT_MS = 3000 ∧
    (∀ (m m2 : TransitionState) (elems : List FlickerElement),
        failsafeTimeout m elems = failsafeTimeout m2 elems) ∧
    (∀ (m : TransitionState) (elems : List FlickerElement) (e : FlickerElement),
        e ∈ failsafeTimeout m elems → e.preventFlicker = true →
        e.visibilityHidden = false) := by
  refine ⟨rfl, fun _ _ _ => rfl, ?_⟩
  intro m elems e he hp
  rw [failsafeTimeout, List.mem_map] at he
  obtain ⟨x, _, hfe⟩ := he
  by_cases hc : (x.preventFlicker && x.visibilityHidden) = true
  · rw [if_pos hc] at hfe
    rw [← hfe]
  · rw [if_neg hc] at hfe
    subst hfe
    cases hv : x.visibilityHidden
    · rfl
    · exact absurd (by rw [hp, hv]; rfl) hc

/-- C4 witness: the theorem applied to a hidden marked element with the
machinery stuck mid-transition. -/
theorem C4_failsafe_reveals_witness :
    (⟨true, false, "1"⟩ : FlickerElement).visibilityHidden = false :=
  C4_failsafe_reveals.2.2 ⟨true, none, none, false⟩ [⟨true, true, "0"⟩]
    ⟨true, false, "1"⟩ (by decide) (by decide)

/-- C7: across afterLeave, beforeEnter and enter, the scroll position ends
at the top when no anchor target is requested for the navigation, and at the
anchor element when a hash is requested and the anchor exists, in which case
the stored position (not zero) flows into the anchor jump. -/
theorem C7_enter_scroll (navHash0 : Option String) (hasTrigger : Bool)
    (locationHash : Option String) (anchorPos : String → Option Nat) (y0 : Nat) :
    (beforeEnterHash navHash0 hasTrigger locationHash = none →
      enterScrollPipeline navHash0 hasTrigger locationHash anchorPos y0 = 0) ∧
    (∀ (h : String) (y : Nat),
      beforeEnterHash navHash0 hasTrigger locationHash = some h →
      anchorPos h = some y →
      enterScrollPipeline navHash0 hasTrigger locationHash anchorPos y0 = y) := by
  constructor
  · intro hnone
    cases navHash0 with
    | some a => simp [beforeEnterHash] at hnone
    | none =>
      simp only [enterScrollPipeline]
      rw [hnone]
      rfl
  · intro h y hsome hanch
    simp only [enterScrollPipeline]
    rw [hsome]
    simp only [enterHashScroll]
    rw [hanch]
    rfl

/-- C7 witness: the theorem applied to a navigation without an anchor and to
a navigation with an anchor at position 700. -/
theorem C7_enter_scroll_witness :
    enterScrollPipeline none true none (fun _ => some 700) 500 = 0 ∧
    enterScrollPipeline (some "#team") true none (fun _ => some 700) 500 = 700 :=
  ⟨(C7_enter_scroll none true none (fun _ => some 700) 500).1 rfl,
   (C7_enter_scroll (some "#team") true none (fun _ => some 700) 500).2 "#team" 700 rfl rfl⟩

/-- C6: syncHtmlAndBodyFromHTML applied to an empty markup string changes
nothing; the data-wf-page attribute of the document is set exactly when a
value is found inside the matched html tag and is otherwise untouched; the
body class is replaced exactly when the body-class regex matches and is
otherwise untouched; and on a concrete fetched markup both pieces are
applied. -/
theorem C6_syncHtmlAndBody :
    (∀ st : DocState, syncHtmlAndBodyFromHTML st "" = st) ∧
    (∀ (st : DocState) (s : String), extractWfPage s = none →
        (syncHtmlAndBodyFromHTML st s).wfPage = st.wfPage) ∧
    (∀ (st : DocState) (s v : String), extractWfPage s = some v →
        (syncHtmlAndBodyFromHTML st s).wfPage = some v) ∧
    (∀ (st : DocState) (s : String), extractBodyClass s = none →
        (syncHtmlAndBodyFromHTML st s).bodyClassName = st.bodyClassName) ∧
    (∀ (st : DocState) (s c : String), extractBodyClass s = some c →
        (syncHtmlAndBodyFromHTML st s).bodyClassName = c) ∧
    syncHtmlAndBodyFromHTML ⟨some "OLD", "old"⟩
        "<html lang=\"en\" data-wf-page=\"pg77\"><body data-x=\"1\" class=\"home w-mod\">rest"
      = ⟨some "pg77", "home w-mod"⟩ := by
  refine ⟨fun st => by rw [syncHtmlAndBodyFromHTML]; rfl, ?_, ?_, ?_, ?_, by decide⟩
  · intro st s hwf
    rw [syncHtmlAndBodyFromHTML]
    by_cases hs : s = ""
    · rw [if_pos hs]
    · rw [if_neg hs, hwf]
      cases hb : extractBodyClass s <;> simp
  · intro st s v hwf
    rw [syncHtmlAndBodyFromHTML]
    have hs : ¬ (s = "") := by
      intro hs0
      rw [hs0] at hwf
      cases hwf
    rw [if_neg hs, hwf]
    cases hb : extractBodyClass s <;> simp
  · intro st s hbc
    rw [syncHtmlAndBodyFromHTML]
    by_cases hs : s = ""
    · rw [if_pos hs]
    · rw [if_neg hs, hbc]
      cases hw : extractWfPage s <;> simp
  · intro st s c hbc
    rw [syncHtmlAndBodyFromHTML]
    have hs : ¬ (s = "") := by
      intro hs0
      rw [hs0] at hbc
      cases hbc
    rw [if_neg hs, hbc]

/-- C6 witness: the theorem applied to a markup string carrying a
data-wf-page value. -/
theorem C6_syncHtmlAndBody_witness :
    (syncHtmlAndBodyFromHTML ⟨none, "x"⟩
        "<html data-wf-page=\"p1\"><body class=\"c1\">").wfPage = some "p1" :=
  C6_syncHtmlAndBody.2.2.1 ⟨none, "x"⟩
    "<html data-wf-page=\"p1\"><body class=\"c1\">" "p1" (by decide)

/-- The click handler never changes the isTransitioning flag: only the
transition hooks do. -/
theorem clickHandler_keeps_flag (st : TransitionState) (l : LinkInfo)
    (cur : String) : (clickHandler st l cur).2.isTransitioning = st.isTransitioning := by
  cases hsp : (l.hasSpecialNavButton && strContainsChar l.href '#') with
  | true =>
    by_cases hpn : l.pathname = cur
    · simp [clickHandler, hsp, hpn]
    · cases htr : st.isTransitioning <;> simp [clickHandler, hsp, hpn, htr]
  | false =>
    cases hs2 : (strStartsWith l.href "/" && !(strStartsWith l.href "/#"))
    · simp [clickHandler, hsp, hs2]
    · cases htr : st.isTransitioning <;> simp [clickHandler, hsp, hs2, htr]

/-- While a transition is in flight, the click handler never reaches a
barba.go call. -/
theorem clickHandler_no_go (st : TransitionState) (l : LinkInfo) (cur : String)
    (ht : st.isTransitioning = true) (u : String) :
    (clickHandler st l cur).1 ≠ ClickAction.go u := by
  cases hsp : (l.hasSpecialNavButton && strContainsChar l.href '#') with
  | true =>
    by_cases hpn : l.pathname = cur
    · simp [clickHandler, hsp, hpn]
    · simp [clickHandler, hsp, hpn, ht]
  | false =>
    cases hs2 : (strStartsWith l.href "/" && !(strStartsWith l.href "/#"))
    · simp [clickHandler, hsp, hs2]
    · simp [clickHandler, hsp, hs2, ht]

/-- While a transition is in flight, a navigation click is turned into a
queue action and overwrites the pending slot with its own request. -/
theorem clickHandler_queues (st : TransitionState) (l : LinkInfo) (cur : String)
    (ht : st.isTransitioning = true) (hn : isNavClick l cur = true) :
    (clickHandler st l cur).1 = ClickAction.queue (navOf l) ∧
    (clickHandler st l cur).2.pendingNavigation = some (navOf l) := by
  cases hsp : (l.hasSpecialNavButton && strContainsChar l.href '#') with
  | true =>
    simp only [isNavClick, hsp, Bool.true_and, Bool.not_true, Bool.false_and,
      Bool.or_false] at hn
    have hne : ¬ (l.pathname = cur) := by
      intro hcontra
      rw [hcontra] at hn
      simp at hn
    constructor <;> simp [clickHandler, hsp, hne, ht, navOf]
  | false =>
    simp only [isNavClick, hsp, Bool.false_and, Bool.not_false, Bool.true_and,
      Bool.false_or] at hn
    constructor <;> simp [clickHandler, hsp, hn, ht, navOf]

/-- The pending slot after any click either keeps its old content or holds
the request of that very click: a single slot with last-write-wins. -/
theorem clickHandler_pending_cases (st : TransitionState) (l : LinkInfo) (cur : String) :
    (clickHandler st l cur).2.pendingNavigation = st.pendingNavigation ∨
    (clickHandler st l cur).2.pendingNavigation = some (navOf l) := by
  cases hsp : (l.hasSpecialNavButton && strContainsChar l.href '#') with
  | true =>
    by_cases hpn : l.pathname = cur
    · exact Or.inl (by simp [clickHandler, hsp, hpn])
    · cases htr : st.isTransitioning
      · exact Or.inl (by simp [clickHandler, hsp, hpn, htr])
      · exact Or.inr (by simp [clickHandler, hsp, hpn, htr, navOf])
  | false =>
    cases hs2 : (strStartsWith l.href "/" && !(strStartsWith l.href "/#"))
    · exact Or.inl (by simp [clickHandler, hsp, hs2])
    · cases htr : st.isTransitioning
      · exact Or.inl (by simp [clickHandler, hsp, hs2, htr])
      · exact Or.inr (by simp [clickHandler, hsp, hs2, htr, navOf])

/-- End of enter with a pending navigation: exactly one barba.go is
scheduled, with the pending URL, the slot is cleared, and a second pass
schedules nothing. -/
theorem enterPendingReplay_replays (st : TransitionState) (p : Nav)
    (hp : st.pendingNavigation = some p) :
    (enterPendingReplay st).2 = [p.url] ∧
    (enterPendingReplay st).1.pendingNavigation = none ∧
    (enterPendingReplay (enterPendingReplay st).1).2 = [] := by
  simp [enterPendingReplay, hp]

/-- Processing a burst of navigation clicks during a transition leaves the
machine transitioning, queues every click, and leaves the pending slot with
the request of the last click. -/
theorem applyClicks_last_pending (cur : String) :
    ∀ (clicks : List LinkInfo) (st : TransitionState) (last : LinkInfo),
      st.isTransitioning = true →
      (∀ l ∈ clicks, isNavClick l cur = true) →
      clicks.getLast? = some last →
      (applyClicks cur st clicks).1.pendingNavigation = some (navOf last) ∧
      (applyClicks cur st clicks).1.isTransitioning = true ∧
      (∀ a ∈ (applyClicks cur st clicks).2, ∃ n : Nav, a = ClickAction.queue n) := by
  intro clicks
  induction clicks with
  | nil => intro st last _ _ hlast; cases hlast
  | cons l rest ih =>
    intro st last ht hnav hlast
    have hl : isNavClick l cur = true := hnav l (List.mem_cons_self l rest)
    have hq := clickHandler_queues st l cur ht hl
    have ht2 : (clickHandler st l cur).2.isTransitioning = true := by
      rw [clickHandler_keeps_flag]; exact ht
    cases rest with
    | nil =>
      have hlast2 : l = last := by
        rw [List.getLast?_singleton] at hlast
        exact Option.some.inj hlast
      refine ⟨?_, ?_, ?_⟩
      · simp only [applyClicks]
        rw [← hlast2]
        exact hq.2
      · simp only [applyClicks]
        exact ht2
      · simp only [applyClicks]
        intro a ha
        rcases List.mem_cons.mp ha with h1 | h1
        · exact ⟨navOf l, by rw [h1, hq.1]⟩
        · cases h1
    | cons l2 rest2 =>
      have hlast2 : (l2 :: rest2).getLast? = some last := by
        rw [← List.getLast?_cons_cons]
        exact hlast
      have hnav2 : ∀ x ∈ l2 :: rest2, isNavClick x cur = true := by
        intro x hx
        exact hnav x (List.mem_cons_of_mem l hx)
      obtain ⟨ihp, iht, iha⟩ := ih (clickHandler st l cur).2 last ht2 hnav2 hlast2
      refine ⟨?_, ?_, ?_⟩
      · simp only [applyClicks]
        exact ihp
      · simp only [applyClicks]
        exact iht
      · simp only [applyClicks]
        intro a ha
        rcases List.mem_cons.mp ha with h1 | h1
        · exact ⟨navOf l, by rw [h1, hq.1]⟩
        · exact iha a h1

/-- C1: for every nonempty burst of navigation clicks arriving while a
transition is in flight, every click is queued rather than run, and when the
in-flight transition completes exactly one extra navigation is scheduled,
whose destination is the request of the last click of the burst; afterwards
the pending slot is empty. -/
theorem C1_rapid_clicks_last_wins (st : TransitionState) (cur : String)
    (clicks : List LinkInfo) (last : LinkInfo)
    (ht : st.isTransitioning = true)
    (hnav : ∀ l ∈ clicks, isNavClick l cur = true)
    (hlast : clicks.getLast? = some last) :
    (∀ a ∈ (applyClicks cur st clicks).2, ∃ n : Nav, a = ClickAction.queue n) ∧
    (applyClicks cur st clicks).1.pendingNavigation = some (navOf last) ∧
    (enterPendingReplay (applyClicks cur st clicks).1).2 = [(navOf last).url] ∧
    (enterPendingReplay (applyClicks cur st clicks).1).1.pendingNavigation = none := by
  obtain ⟨hp, _, hact⟩ := applyClicks_last_pending cur clicks st last ht hnav hlast
  obtain ⟨hr1, hr2, _⟩ := enterPendingReplay_replays _ _ hp
  exact ⟨hact, hp, hr1, hr2⟩

/-- Internal link to the work page. -/
def clickWork : LinkInfo :=
  ⟨"/work", "https://studioprimal.com/work", "/work", "", "studioprimal.com",
   false, false, false⟩

/-- Internal link to the about page. -/
def clickAbout : LinkInfo :=
  ⟨"/about", "https://studioprimal.com/about", "/about", "", "studioprimal.com",
   false, false, false⟩

/-- A transition in flight with an empty pending slot. -/
def inFlightState : TransitionState := ⟨true, none, none, false⟩

/-- C1 witness: two rapid clicks (work, then about) during a transition end
with a single scheduled navigation to the about page. -/
theorem C1_rapid_clicks_last_wins_witness :
    (applyClicks "/" inFlightState [clickWork, clickAbout]).1.pendingNavigation
        = some (navOf clickAbout) ∧
    (enterPendingReplay (applyClicks "/" inFlightState [clickWork, clickAbout]).1).2
        = [(navOf clickAbout).url] := by
  have h := C1_rapid_clicks_last_wins inFlightState "/" [clickWork, clickAbout]
    clickAbout rfl (by decide) rfl
  exact ⟨h.2.1, h.2.2.1⟩

/-- C2 (amended): while a transition is in flight, no second transition can
start: triggerSamePageTransition returns with no effect, a click never
produces a barba.go and never ends the in-flight transition, every
navigation click (a click the handler would execute as a page navigation
when idle) is captured into the pending slot instead, and a captured
navigation is replayed exactly once after the transition reaches idle. -/
theorem C2_transition_window_guard (st : TransitionState)
    (ht : st.isTransitioning = true) :
    triggerSamePageTransition st = (st, []) ∧
    (∀ (l : LinkInfo) (cur u : String), (clickHandler st l cur).1 ≠ ClickAction.go u) ∧
    (∀ (l : LinkInfo) (cur : String), (clickHandler st l cur).2.isTransitioning = true) ∧
    (∀ (l : LinkInfo) (cur : String), isNavClick l cur = true →
        (clickHandler st l cur).1 = ClickAction.queue (navOf l) ∧
        (clickHandler st l cur).2.pendingNavigation = some (navOf l)) ∧
    (∀ p : Nav, st.pendingNavigation = some p →
        (enterPendingReplay st).2 = [p.url] ∧
        (enterPendingReplay st).1.pendingNavigation = none ∧
        (enterPendingReplay (enterPendingReplay st).1).2 = []) := by
  refine ⟨by simp [triggerSamePageTransition, ht], ?_, ?_, ?_, ?_⟩
  · intro l cur u
    exact clickHandler_no_go st l cur ht u
  · intro l cur
    rw [clickHandler_keeps_flag]
    exact ht
  · intro l cur hn
    exact clickHandler_queues st l cur ht hn
  · intro p hp
    exact enterPendingReplay_replays st p hp

/-- Special nav button pointing at an anchor of the current page. -/
def samePageSpecialLink : LinkInfo :=
  ⟨"/#contact", "https://studioprimal.com/#contact", "/", "#contact",
   "studioprimal.com", true, false, false⟩

/-- C2 counterexample to the claim as stated: a special-nav anchor click on
the current page while a transition is in flight is executed immediately as
a direct scroll (with the URL replaced), not captured into the pending slot,
so not every link click in that window is captured. -/
theorem C2_counterexample :
    inFlightState.isTransitioning = true ∧
    (clickHandler inFlightState samePageSpecialLink "/").1
        = ClickAction.scrollToAnchor "#contact" ∧
    (clickHandler inFlightState samePageSpecialLink "/").2.pendingNavigation = none := by
  decide

/-- C2 witness: the amended theorem applied to a transitioning state with a
queued request to the about page. -/
theorem C2_transition_window_guard_witness :
    triggerSamePageTransition ⟨true, some ⟨"https://studioprimal.com/about", none, false⟩,
        none, false⟩
      = (⟨true, some ⟨"https://studioprimal.com/about", none, false⟩, none, false⟩, []) ∧
    (enterPendingReplay ⟨true, some ⟨"https://studioprimal.com/about", none, false⟩,
        none, false⟩).2 = ["https://studioprimal.com/about"] :=
  ⟨(C2_transition_window_guard _ rfl).1,
   ((C2_transition_window_guard _ rfl).2.2.2.2 _ rfl).1⟩

/-- Idle transition state. -/
def idleState : TransitionState := ⟨false, none, none, false⟩

/-- Same-page anchor link written with an absolute-path href and no
special-nav-button attribute. -/
def samePageAbsAnchor : LinkInfo :=
  ⟨"/about#team", "https://studioprimal.com/about#team", "/about", "#team",
   "studioprimal.com", false, false, false⟩

/-- C5 counterexample to the claim as stated: clicking a same-page anchor
link whose href is an absolute path with a hash (no special-nav-button) is
intercepted by the capture handler, which suppresses the native anchor jump
and issues a barba.go navigation instead of scrolling to the anchor; the
prevent predicate would have rejected the link, but the handler bypasses
barba.init. -/
theorem C5_counterexample :
    samePageAbsAnchor.pathname = "/about" ∧
    strContainsChar samePageAbsAnchor.href '#' = true ∧
    (clickHandler idleState samePageAbsAnchor "/about").1
        = ClickAction.go "https://studioprimal.com/about#team" ∧
    (clickHandler idleState samePageAbsAnchor "/about").1
        ≠ ClickAction.scrollToAnchor "#team" ∧
    preventNavigation "studioprimal.com" samePageAbsAnchor = true := by
  decide

/-- C5 (amended): a same-page anchor click starts no transition when the
capture handler treats it as an anchor: a special nav button whose pathname
matches the current page is scrolled directly with no state change, and a
plain link whose href does not enter the internal-path branch (it starts
with a hash, or with a slash-hash, or not with a slash) is ignored by the
handler and rejected by the prevent predicate, so no leave or enter hook
runs; but a same-page anchor with a plain absolute-path href is forwarded
to barba.go like a cross-page navigation. -/
theorem C5_same_page_anchor (st : TransitionState) (l : LinkInfo)
    (cur locationHost : String) (hsame : l.pathname = cur)
    (hhash : strContainsChar l.href '#' = true) :
    (l.hasSpecialNavButton = true →
        clickHandler st l cur = (ClickAction.scrollToAnchor l.hashFrag, st)) ∧
    (l.hasSpecialNavButton = false →
      (strStartsWith l.href "/" = false ∨ strStartsWith l.href "/#" = true) →
        clickHandler st l cur = (ClickAction.ignore, st) ∧
        preventNavigation locationHost l = true) := by
  constructor
  · intro hb
    simp [clickHandler, hb, hhash, hsame]
  · intro hb hcase
    constructor
    · rcases hcase with hc | hc
      · simp [clickHandler, hb, hc]
      · simp [clickHandler, hb, hc]
    · rw [preventNavigation]
      by_cases ha : l.absHref = ""
      · rw [if_pos ha]
      · rw [if_neg ha]
        simp [hb, hhash]

/-- C5 witness: the amended theorem applied to the special-nav contact
anchor on the home page and to a plain hash link. -/
theorem C5_same_page_anchor_witness :
    clickHandler idleState samePageSpecialLink "/"
        = (ClickAction.scrollToAnchor "#contact", idleState) ∧
    clickHandler idleState
        ⟨"#top", "https://studioprimal.com/#top", "/", "#top", "studioprimal.com",
         false, false, false⟩ "/"
      = (ClickAction.ignore, idleState) ∧
    preventNavigation "studioprimal.com"
        ⟨"#top", "https://studioprimal.com/#top", "/", "#top", "studioprimal.com",
         false, false, false⟩ = true := by
  refine ⟨?_, ?_, ?_⟩
  · exact (C5_same_page_anchor idleState samePageSpecialLink "/" "studioprimal.com"
      rfl (by decide)).1 rfl
  · exact ((C5_same_page_anchor idleState
      ⟨"#top", "https://studioprimal.com/#top", "/", "#top", "studioprimal.com",
       false, false, false⟩ "/" "studioprimal.com" rfl (by decide)).2 rfl
      (Or.inl (by decide))).1
  · exact ((C5_same_page_anchor idleState
      ⟨"#top", "https://studioprimal.com/#top", "/", "#top", "studioprimal.com",
       false, false, false⟩ "/" "studioprimal.com" rfl (by decide)).2 rfl
      (Or.inl (by decide))).2

/-- Navigation-affecting events while a transition is in flight. -/
inductive NavEvent where
  | click (l : LinkInfo) (cur : String)
  | pop (currentHref : String)

/-- One event processed against the transition state. -/
def navStep (st : TransitionState) (e : NavEvent) : TransitionState :=
  match e with
  | NavEvent.click l cur => (clickHandler st l cur).2
  | NavEvent.pop href => (popstateHandler st href).1

/-- The request an event would queue. -/
def eventNav (e : NavEvent) : Nav :=
  match e with
  | NavEvent.click l _ => navOf l
  | NavEvent.pop href => ⟨href, none, false⟩

/-- A pending request on the a page. -/
def pendingA : Nav := ⟨"https://studioprimal.com/a", none, false⟩

/-- Transition in flight with the a request already pending. -/
def inFlightWithPending : TransitionState := ⟨true, some pendingA, none, false⟩

/-- C8 counterexample to the claim as stated: a browser back/forward event
arriving while a transition is in flight and a pending request exists leaves
the older pending request in place; the newer back/forward request does not
overwrite it. -/
theorem C8_counterexample :
    inFlightWithPending.isTransitioning = true ∧
    (popstateHandler inFlightWithPending "https://studioprimal.com/b").1
        = inFlightWithPending ∧
    (popstateHandler inFlightWithPending "https://studioprimal.com/b").1.pendingNavigation
        ≠ some ⟨"https://studioprimal.com/b", none, false⟩ := by
  decide

/-- C8 (amended): at most one pending request is ever retained: every event
leaves the slot holding either its previous content or the request of that
event; a navigation click during the window overwrites the slot last-write-
wins; browser back/forward fills the slot only when it is empty and never
overwrites an existing pending request. -/
theorem C8_single_slot (st : TransitionState) (ht : st.isTransitioning = true) :
    (∀ e : NavEvent, (navStep st e).pendingNavigation = st.pendingNavigation ∨
        (navStep st e).pendingNavigation = some (eventNav e)) ∧
    (∀ (l : LinkInfo) (cur : String), isNavClick l cur = true →
        (navStep st (NavEvent.click l cur)).pendingNavigation = some (navOf l)) ∧
    (∀ href : String, st.pendingNavigation = none →
        (navStep st (NavEvent.pop href)).pendingNavigation
          = some ⟨href, none, false⟩) ∧
    (∀ (href : String) (p : Nav), st.pendingNavigation = some p →
        navStep st (NavEvent.pop href) = st) := by
  refine ⟨?_, ?_, ?_, ?_⟩
  · intro e
    cases e with
    | click l cur => exact clickHandler_pending_cases st l cur
    | pop href =>
      rw [navStep, popstateHandler]
      split
      · exact Or.inr rfl
      · exact Or.inl rfl
  · intro l cur hn
    exact (clickHandler_queues st l cur ht hn).2
  · intro href hp
    rw [navStep, popstateHandler, if_pos (by rw [ht, hp]; rfl)]
  · intro href p hp
    rw [navStep, popstateHandler, if_neg (by rw [hp]; simp)]

/-- C8 witness: the amended theorem applied to a click overwriting the
pending a request with the about request, and to a popstate that cannot
overwrite it. -/
theorem C8_single_slot_witness :
    (navStep inFlightWithPending (NavEvent.click clickAbout "/")).pendingNavigation
        = some (navOf clickAbout) ∧
    navStep inFlightWithPending (NavEvent.pop "https://studioprimal.com/b")
        = inFlightWithPending :=
  ⟨(C8_single_slot inFlightWithPending rfl).2.1 clickAbout "/" (by decide),
   (C8_single_slot inFlightWithPending rfl).2.2.2 "https://studioprimal.com/b"
     pendingA rfl⟩

/-- contains on a string list agrees with membership. -/
theorem contains_mem {st : List String} {x : String} :
    st.contains x = true ↔ x ∈ st := List.elem_iff

/-- A pair in the teardown call list carries the name of a registered
instance. -/
theorem destroyCalls_name_mem (l : List InstanceEntry) (p : String × String)
    (hp : p ∈ l.filterMap (fun e =>
      if e.methods.contains e.destroyMethod then some (e.name, e.destroyMethod)
      else none)) :
    p.1 ∈ l.map InstanceEntry.name := by
  rw [List.mem_filterMap] at hp
  obtain ⟨e, he, hfe⟩ := hp
  by_cases hc : e.methods.contains e.destroyMethod = true
  · rw [if_pos hc] at hfe
    have hpe : (e.name, e.destroyMethod) = p := Option.some.inj hfe
    rw [← hpe]
    exact List.mem_map_of_mem InstanceEntry.name he
  · rw [if_neg hc] at hfe
    cases hfe

/-- With unique instance names, every entry with a callable destroy method
appears exactly once in the teardown call list. -/
theorem destroyCalls_count (l : List InstanceEntry)
    (hnd : (l.map InstanceEntry.name).Nodup) (e : InstanceEntry)
    (he : e ∈ l) (hm : e.methods.contains e.destroyMethod = true) :
    (l.filterMap (fun x =>
      if x.methods.contains x.destroyMethod then some (x.name, x.destroyMethod)
      else none)).count (e.name, e.destroyMethod) = 1 := by
  induction l with
  | nil => cases he
  | cons a t ih =>
    rw [List.map_cons, List.nodup_cons] at hnd
    obtain ⟨hna, hnt⟩ := hnd
    rcases List.mem_cons.mp he with heq | het
    · subst heq
      rw [List.filterMap_cons, if_pos hm]
      dsimp only
      rw [List.count_cons_self]
      have hzero : (t.filterMap (fun x =>
          if x.methods.contains x.destroyMethod then some (x.name, x.destroyMethod)
          else none)).count (e.name, e.destroyMethod) = 0 := by
        rw [List.count_eq_zero]
        intro hmem
        exact hna (destroyCalls_name_mem t (e.name, e.destroyMethod) hmem)
      rw [hzero]
    · have hne : (e.name, e.destroyMethod) ≠ (a.name, a.destroyMethod) := by
        intro hpair
        have h1 : e.name = a.name := congrArg Prod.fst hpair
        exact hna (h1 ▸ List.mem_map_of_mem InstanceEntry.name het)
      by_cases hc : a.methods.contains a.destroyMethod = true
      · rw [List.filterMap_cons, if_pos hc]
        dsimp only
        rw [List.count_cons_of_ne hne]
        exact ih hnt het
      · rw [List.filterMap_cons, if_neg hc]
        dsimp only
        exact ih hnt het

/-- C3: on leaving a view, destroyAll invokes every teardown registered in
the registry exactly once (each entry with a callable registered destroy
method contributes exactly one call), after which the instance map and the
initialized-script set are both empty and both per-widget flags
(macyInitialized, reelOverlayInitialized) are false; and the flags and the
instance map are still clear after the whole afterLeave cleanup, that is,
before the initializers of the next view run in beforeEnter. -/
theorem C3_registry_teardown (r : Registry)
    (hnd : (r.instances.map InstanceEntry.name).Nodup) :
    (∀ e ∈ r.instances, e.methods.contains e.destroyMethod = true →
        (destroyAll r).2.count (e.name, e.destroyMethod) = 1) ∧
    (destroyAll r).1.instances = [] ∧
    (destroyAll r).1.initializedScripts = [] ∧
    (destroyAll r).1.macyInitialized = false ∧
    (destroyAll r).1.reelOverlayInitialized = false ∧
    (∀ ds : List String,
        (afterLeaveCleanup r ds).1.instances = [] ∧
        (afterLeaveCleanup r ds).1.macyInitialized = false ∧
        (afterLeaveCleanup r ds).1.reelOverlayInitialized = false) := by
  refine ⟨?_, rfl, rfl, rfl, rfl, fun ds => ⟨rfl, rfl, rfl⟩⟩
  intro e he hm
  exact destroyCalls_count r.instances hnd e he hm

/-- The registry after one view: three widgets registered, flags set. -/
def viewRegistry : Registry :=
  ((({ instances := [], initializedScripts := ["init_0_x"], macyInitialized := true,
       reelOverlayInitialized := true } : Registry).register "valuesSlider"
        "destroy" ["destroy"]).register "macy" "remove"
        ["remove", "recalculate"]).register "reelOverlay" "destroy" ["open"]

/-- C3 witness: the theorem applied to the concrete view registry; the macy
teardown is invoked exactly once and the registry is reset. -/
theorem C3_registry_teardown_witness :
    (destroyAll viewRegistry).2.count ("macy", "remove") = 1 ∧
    (destroyAll viewRegistry).1.instances = [] ∧
    (destroyAll viewRegistry).1.initializedScripts = [] ∧
    (destroyAll viewRegistry).1.macyInitialized = false ∧
    (afterLeaveCleanup viewRegistry ["destroy me"]).1.macyInitialized = false :=
  ⟨(C3_registry_teardown viewRegistry (by decide)).1
      ⟨"macy", "remove", ["remove", "recalculate"]⟩ (by decide) (by decide),
   (C3_registry_teardown viewRegistry (by decide)).2.1,
   (C3_registry_teardown viewRegistry (by decide)).2.2.1,
   (C3_registry_teardown viewRegistry (by decide)).2.2.2.1,
   ((C3_registry_teardown viewRegistry (by decide)).2.2.2.2.2 ["destroy me"]).2.1⟩

/-- The initialized-script set only grows during a pass. -/
theorem runCustomScripts_mem_st (action : String) :
    ∀ (l : List String) (k : Nat) (st : List String) (x : String), x ∈ st →
      x ∈ (runCustomScripts action k l st).1 := by
  intro l
  induction l with
  | nil => intro k st x hx; exact hx
  | cons c rest ih =>
    intro k st x hx
    simp only [runCustomScripts]
    split
    · exact ih (k + 1) st x hx
    · exact ih (k + 1) _ x (List.mem_cons_of_mem _ hx)

/-- Every processed script has its identity in the final set, whether it was
executed, skipped, or empty. -/
theorem runCustomScripts_marks (action : String) :
    ∀ (l : List String) (k : Nat) (st : List String) (j : Nat) (h : j < l.length),
      mkScriptId action (k + j) (l.get ⟨j, h⟩) ∈ (runCustomScripts action k l st).1 := by
  intro l
  induction l with
  | nil => intro k st j h; exact absurd h (Nat.not_lt_zero j)
  | cons c rest ih =>
    intro k st j h
    cases j with
    | zero =>
      simp only [runCustomScripts, List.get]
      rw [Nat.add_zero]
      split
      · rename_i hc
        exact runCustomScripts_mem_st action rest (k + 1) st _ (contains_mem.mp hc)
      · exact runCustomScripts_mem_st action rest (k + 1) _ _ (List.mem_cons_self _ _)
    | succ j2 =>
      have h2 : j2 < rest.length := Nat.lt_of_succ_lt_succ h
      have harith : k + (j2 + 1) = (k + 1) + j2 := by omega
      simp only [runCustomScripts, List.get]
      rw [harith]
      split
      · exact ih (k + 1) st j2 h2
      · exact ih (k + 1) _ j2 h2

/-- An executed identity was not in the incoming set: scripts whose identity
is already initialized are skipped. -/
theorem runCustomScripts_exec_fresh (action : String) :
    ∀ (l : List String) (k : Nat) (st : List String) (x : String),
      x ∈ (runCustomScripts action k l st).2 → x ∉ st := by
  intro l
  induction l with
  | nil => intro k st x hx; cases hx
  | cons c rest ih =>
    intro k st x hx hmem
    simp only [runCustomScripts] at hx
    split at hx
    · exact ih (k + 1) st x hx hmem
    · rename_i hc
      by_cases hw : hasNonWs c = true
      · rw [if_pos hw] at hx
        rcases List.mem_cons.mp hx with heq | hx2
        · exact hc (contains_mem.mpr (heq ▸ hmem))
        · exact ih (k + 1) _ x hx2 (List.mem_cons_of_mem _ hmem)
      · rw [if_neg hw] at hx
        exact ih (k + 1) _ x hx (List.mem_cons_of_mem _ hmem)

/-- The executed identities of one pass are distinct. -/
theorem runCustomScripts_exec_nodup (action : String) :
    ∀ (l : List String) (k : Nat) (st : List String),
      (runCustomScripts action k l st).2.Nodup := by
  intro l
  induction l with
  | nil => intro k st; exact List.nodup_nil
  | cons c rest ih =>
    intro k st
    simp only [runCustomScripts]
    split
    · exact ih (k + 1) st
    · by_cases hw : hasNonWs c = true
      · rw [if_pos hw]
        refine List.nodup_cons.mpr ⟨?_, ih (k + 1) _⟩
        intro hmem
        exact runCustomScripts_exec_fresh action rest (k + 1) _ _ hmem
          (List.mem_cons_self _ _)
      · rw [if_neg hw]
        exact ih (k + 1) _

/-- Every executed identity ends up in the final set. -/
theorem runCustomScripts_exec_marked (action : String) :
    ∀ (l : List String) (k : Nat) (st : List String) (x : String),
      x ∈ (runCustomScripts action k l st).2 → x ∈ (runCustomScripts action k l st).1 := by
  intro l
  induction l with
  | nil => intro k st x hx; cases hx
  | cons c rest ih =>
    intro k st x hx
    simp only [runCustomScripts] at hx ⊢
    split at hx
    · rename_i hc
      rw [if_pos hc]
      exact ih (k + 1) st x hx
    · rename_i hc
      rw [if_neg hc]
      by_cases hw : hasNonWs c = true
      · rw [if_pos hw] at hx
        rcases List.mem_cons.mp hx with heq | hx2
        · exact heq ▸ runCustomScripts_mem_st action rest (k + 1) _ _
            (List.mem_cons_self _ _)
        · exact ih (k + 1) _ x hx2
      · rw [if_neg hw] at hx
        exact ih (k + 1) _ x hx

/-- C9: within one registry epoch executeCustomScripts executes each script
identity at most once: an identity already in the initialized-script set is
never executed again (skipped), the identities executed by one pass are
distinct, every processed script leaves its identity in the set, a later
pass in the same epoch never re-executes an identity from an earlier pass,
and two textually different scripts occupying the same index whose contents
agree on the first 20 characters after whitespace removal are conflated into
the same identity, so the second of them never executes. -/
theorem C9_script_identity :
    (∀ (action : String) (l st : List String) (x : String),
        x ∈ (executeCustomScripts action l st).2 → x ∉ st) ∧
    (∀ (action : String) (l st : List String),
        (executeCustomScripts action l st).2.Nodup) ∧
    (∀ (action : String) (l st : List String) (j : Nat) (h : j < l.length),
        mkScriptId action j (l.get ⟨j, h⟩) ∈ (executeCustomScripts action l st).1) ∧
    (∀ (action : String) (l1 l2 st : List String) (x : String),
        x ∈ (executeCustomScripts action l2 (executeCustomScripts action l1 st).1).2 →
        x ∉ (executeCustomScripts action l1 st).2) ∧
    (∀ (action : String) (st l1 l2 : List String) (j : Nat)
        (h1 : j < l1.length) (h2 : j < l2.length),
        (l1.get ⟨j, h1⟩) ≠ (l2.get ⟨j, h2⟩) →
        ((l1.get ⟨j, h1⟩).toList.take 20).filter (fun ch => !(isJsSpace ch))
          = ((l2.get ⟨j, h2⟩).toList.take 20).filter (fun ch => !(isJsSpace ch)) →
        mkScriptId action j (l2.get ⟨j, h2⟩)
          ∉ (executeCustomScripts action l2 (executeCustomScripts action l1 st).1).2) := by
  have hmarks : ∀ (action : String) (l st : List String) (j : Nat) (h : j < l.length),
      mkScriptId action j (l.get ⟨j, h⟩) ∈ (executeCustomScripts action l st).1 := by
    intro action l st j h
    have := runCustomScripts_marks action l 0 st j h
    rw [Nat.zero_add] at this
    exact this
  refine ⟨?_, ?_, hmarks, ?_, ?_⟩
  · intro action l st x hx
    exact runCustomScripts_exec_fresh action l 0 st x hx
  · intro action l st
    exact runCustomScripts_exec_nodup action l 0 st
  · intro action l1 l2 st x hx hx1
    exact runCustomScripts_exec_fresh action l2 0 _ x hx
      (runCustomScripts_exec_marked action l1 0 st x hx1)
  · intro action st l1 l2 j h1 h2 hdiff hstrip hmem
    have hid : mkScriptId action j (l1.get ⟨j, h1⟩) = mkScriptId action j (l2.get ⟨j, h2⟩) := by
      rw [mkScriptId, mkScriptId, hstrip]
    have hin : mkScriptId action j (l2.get ⟨j, h2⟩)
        ∈ (executeCustomScripts action l1 st).1 := hid ▸ hmarks action l1 st j h1
    exact runCustomScripts_exec_fresh action l2 0 _ _ hmem hin

/-- C9 witness: the theorem applied to two different scripts at index 0
agreeing on their first 20 characters after whitespace removal; the second
pass does not execute the second script. -/
theorem C9_script_identity_witness :
    mkScriptId "init" 0 "  abc def ghi jkl mno XYZ"
      ∉ (executeCustomScripts "init" ["  abc def ghi jkl mno XYZ"]
          (executeCustomScripts "init" ["  abc def ghi jkl mno pqr"] []).1).2 :=
  C9_script_identity.2.2.2.2 "init" [] ["  abc def ghi jkl mno pqr"]
    ["  abc def ghi jkl mno XYZ"] 0 (by decide) (by decide) (by decide) (by decide)

end Primal
